import Mathlib

/-!
Verification of the POSIX-Pipeline registration program (src/main.c).

The program forks three worker processes (Frontend, Database, Logger) that
share one POSIX message queue.  Messages carry a msg_type tag: type 1 is a
student submission (Frontend to Database), type 2 is a confirmed registration
(Database to Logger).  A worker that dequeues a message of the wrong type
re-sends it onto the queue and retries.

The development embeds the program at two levels:

1. A small-step transition system over the shared queue and the three worker
   loops, with ghost histories of the messages each worker sent, accepted and
   logged.  This captures every interleaving of the three processes in the
   no-transport-failure case and is used for the conservation, identifier,
   tag-integrity and requeue-frame properties.

2. Deterministic per-worker functions driven by an oracle of transport
   results (each mq_receive may fail, each mq_send may fail), mirroring the
   error-handling branches of runFrontendProcess, runDatabaseProcess and
   runLoggerProcess, and a model of main() as a function from the results of
   mq_open, fork, the collected child statuses, mq_close and mq_unlink to the
   process exit code and the ordered trace of lifecycle actions.
-/

set_option maxHeartbeats 1000000

namespace PosixPipeline

/-- Names of the three students, from the students array in runFrontendProcess. -/
def students : List String := ["Alice", "Bob", "Charlie"]

/-- The global constant studentCount = 3. -/
def studentCount : Nat := 3

/-- The queue capacity: mq_maxmsg = 10, set by main before mq_open. -/
def queueCapacity : Nat := 10

/-- The studentMessage structure: msg_type is a C long (type 1 = submission,
type 2 = confirmation), studentName a bounded string, rollNo a C int. -/
structure Msg where
  msg_type : Int
  studentName : String
  rollNo : Int
deriving DecidableEq

/-- The submission message the Frontend sends for student i:
msg_type = 1, studentName = students[i], rollNo = 0. -/
def subMsg (i : Nat) : Msg :=
  { msg_type := 1, studentName := students.getD i "", rollNo := 0 }

/-- The confirmation message the Database sends after accepting m as its
pc-th record: msg_type retagged to 2, rollNo assigned 1001 + processedCount,
studentName preserved from the received submission. -/
def confMsg (pc : Nat) (m : Msg) : Msg :=
  { msg_type := 2, studentName := m.studentName, rollNo := 1001 + (pc : Int) }

/-- Control state of the Database worker: either at the top of its while loop
with processedCount = pc, or between mq_receive and the following mq_send,
holding the dequeued message. -/
inductive DbState
  | waiting (pc : Nat)
  | holding (pc : Nat) (m : Msg)
deriving DecidableEq

/-- Control state of the Logger worker: either at the top of its while loop
with loggedCount = lc, or holding a dequeued message. -/
inductive LgState
  | waiting (lc : Nat)
  | holding (lc : Nat) (m : Msg)
deriving DecidableEq

/-- The processedCount of a Database state. -/
def DbState.count : DbState → Nat
  | .waiting pc => pc
  | .holding pc _ => pc

/-- The loggedCount of a Logger state. -/
def LgState.count : LgState → Nat
  | .waiting lc => lc
  | .holding lc _ => lc

/-- Global configuration of a run: the queue contents (head = next message
mq_receive returns, sends append at the tail), the Frontend loop index fi,
the Database and Logger states, and ghost histories: the messages the Logger
has logged, the submissions the Frontend has sent, the confirmations the
Database has sent, and the submissions the Database has accepted. -/
structure Config where
  q : List Msg
  fi : Nat
  db : DbState
  lg : LgState
  logged : List Msg
  sentSubs : List Msg
  sentConfs : List Msg
  dbAccepted : List Msg
deriving DecidableEq

/-- Initial configuration: empty queue, every counter 0. -/
def init : Config :=
  { q := [], fi := 0, db := .waiting 0, lg := .waiting 0,
    logged := [], sentSubs := [], sentConfs := [], dbAccepted := [] }

/-- One atomic action of one of the three workers, in the failure-free case.
Sends block while the queue is full (length = queueCapacity) and receives
block while it is empty, so those actions are simply not enabled then.

fsend: one iteration of the Frontend for loop (lines 48-60): construct the
submission for students[fi] and mq_send it.

drecv: the Database mq_receive (line 71), enabled at the top of the loop
while processedCount < studentCount.

dproc: the Database accepts a type-1 message (lines 82-95): retag to 2,
assign rollNo = 1001 + processedCount, mq_send, increment processedCount.

dreq: the Database requeues a message whose msg_type is not 1 (lines 77-80).

lrecv, llog, lreq: the symmetric Logger actions (lines 104-117); accepting a
type-2 message only appends to the local log, touching no queue. -/
inductive Step : Config → Config → Prop
  | fsend (c : Config) (h1 : c.fi < studentCount) (h2 : c.q.length < queueCapacity) :
      Step c { c with
               q := c.q ++ [subMsg c.fi],
               fi := c.fi + 1,
               sentSubs := c.sentSubs ++ [subMsg c.fi] }
  | drecv (c : Config) (pc : Nat) (m : Msg) (q2 : List Msg)
      (hdb : c.db = .waiting pc) (hpc : pc < studentCount) (hq : c.q = m :: q2) :
      Step c { c with q := q2, db := .holding pc m }
  | dproc (c : Config) (pc : Nat) (m : Msg)
      (hdb : c.db = .holding pc m) (ht : m.msg_type = 1) (h2 : c.q.length < queueCapacity) :
      Step c { c with
               q := c.q ++ [confMsg pc m],
               db := .waiting (pc + 1),
               sentConfs := c.sentConfs ++ [confMsg pc m],
               dbAccepted := c.dbAccepted ++ [m] }
  | dreq (c : Config) (pc : Nat) (m : Msg)
      (hdb : c.db = .holding pc m) (ht : m.msg_type ≠ 1) (h2 : c.q.length < queueCapacity) :
      Step c { c with q := c.q ++ [m], db := .waiting pc }
  | lrecv (c : Config) (lc : Nat) (m : Msg) (q2 : List Msg)
      (hlg : c.lg = .waiting lc) (hlc : lc < studentCount) (hq : c.q = m :: q2) :
      Step c { c with q := q2, lg := .holding lc m }
  | llog (c : Config) (lc : Nat) (m : Msg)
      (hlg : c.lg = .holding lc m) (ht : m.msg_type = 2) :
      Step c { c with lg := .waiting (lc + 1), logged := c.logged ++ [m] }
  | lreq (c : Config) (lc : Nat) (m : Msg)
      (hlg : c.lg = .holding lc m) (ht : m.msg_type ≠ 2) (h2 : c.q.length < queueCapacity) :
      Step c { c with q := c.q ++ [m], lg := .waiting lc }

/-- A configuration reachable from the initial one by any interleaving. -/
def Reach (c : Config) : Prop :=
  Relation.ReflTransGen Step init c

/-- The tag/identifier discipline on a single message: submissions carry no
identifier, confirmations carry a non-zero one. -/
def tagOk (m : Msg) : Prop :=
  (m.msg_type = 1 → m.rollNo = 0) ∧ (m.msg_type = 2 → m.rollNo ≠ 0)

instance (m : Msg) : Decidable (tagOk m) := by
  unfold tagOk
  infer_instance

/-- The type-2 (confirmation) messages of a list, as a sublist. -/
def confList (l : List Msg) : List Msg :=
  l.filter fun m => decide (m.msg_type = 2)

/-- The multiset of confirmation messages in a list. -/
def confM (l : List Msg) : Multiset Msg :=
  (confList l : Multiset Msg)

/-- The multiset of confirmation messages held by the Database between its
receive and the following send. -/
def dbHeldM : DbState → Multiset Msg
  | .waiting _ => 0
  | .holding _ m => if m.msg_type = 2 then {m} else 0

/-- The multiset of confirmation messages held by the Logger. -/
def lgHeldM : LgState → Multiset Msg
  | .waiting _ => 0
  | .holding _ m => if m.msg_type = 2 then {m} else 0

/-! ## Per-worker models with transport failures

These embed the three run*Process functions as functions of an oracle: recv
gives the result of the n-th mq_receive call (none = the call returned -1)
and sendOk gives the result of the n-th mq_send call (false = returned -1).
The Database and Logger loops need fuel because wrong-tag messages do not
advance their counters. -/

/-- Outcome of runFrontendProcess: exit code and the submissions sent. -/
def feLoop (sendOk : Nat → Bool) : Nat → Nat → List Msg → Nat × List Msg
  | 0, _, sent => (0, sent)
  | r + 1, i, sent =>
    if sendOk i then feLoop sendOk r (i + 1) (sent ++ [subMsg i])
    else (1, sent)

/-- runFrontendProcess (lines 43-64): for each of the studentCount students
construct the submission and mq_send it; a failed send is fatal (exit 1)
with no retry; after all sends, exit 0. -/
def runFrontendProcess (sendOk : Nat → Bool) : Nat × List Msg :=
  feLoop sendOk studentCount 0 []

/-- Observable outcome of a Database run: exit code, accepted submissions,
confirmations sent, and requeue attempts paired with their send result. -/
structure DbRun where
  exitCode : Nat
  accepted : List Msg
  confs : List Msg
  requeues : List (Msg × Bool)
deriving DecidableEq

/-- The Database while loop (lines 70-96).  Arguments: fuel, processedCount,
receive-call index, send-call index, and the accumulated observations.
A failed mq_receive exits 1.  A wrong-tag message is re-sent with the result
of that mq_send ignored (line 78 checks no error), and the loop continues.
An accepted message is retagged, assigned 1001 + processedCount and sent; a
failed send there exits 1, otherwise processedCount increments. -/
def dbLoop (recv : Nat → Option Msg) (sendOk : Nat → Bool) :
    Nat → Nat → Nat → Nat → List Msg → List Msg → List (Msg × Bool) → Option DbRun
  | 0, _, _, _, _, _, _ => none
  | fuel + 1, pc, rc, sc, acc, confs, reqs =>
    if pc < studentCount then
      match recv rc with
      | none => some ⟨1, acc, confs, reqs⟩
      | some m =>
        if m.msg_type ≠ 1 then
          dbLoop recv sendOk fuel pc (rc + 1) (sc + 1) acc confs (reqs ++ [(m, sendOk sc)])
        else
          if sendOk sc then
            dbLoop recv sendOk fuel (pc + 1) (rc + 1) (sc + 1)
              (acc ++ [m]) (confs ++ [confMsg pc m]) reqs
          else some ⟨1, acc ++ [m], confs, reqs⟩
    else some ⟨0, acc, confs, reqs⟩

/-- runDatabaseProcess (lines 66-98) under a transport oracle, with fuel. -/
def runDatabaseProcess (recv : Nat → Option Msg) (sendOk : Nat → Bool)
    (fuel : Nat) : Option DbRun :=
  dbLoop recv sendOk fuel 0 0 0 [] [] []

/-- Observable outcome of a Logger run. -/
structure LgRun where
  exitCode : Nat
  logged : List Msg
  requeues : List (Msg × Bool)
deriving DecidableEq

/-- The Logger while loop (lines 104-118): a failed mq_receive exits 1; a
message whose msg_type is not 2 is re-sent with the send result ignored
(line 112); a type-2 message is logged and loggedCount increments. -/
def lgLoop (recv : Nat → Option Msg) (sendOk : Nat → Bool) :
    Nat → Nat → Nat → Nat → List Msg → List (Msg × Bool) → Option LgRun
  | 0, _, _, _, _, _ => none
  | fuel + 1, lc, rc, sc, logged, reqs =>
    if lc < studentCount then
      match recv rc with
      | none => some ⟨1, logged, reqs⟩
      | some m =>
        if m.msg_type ≠ 2 then
          lgLoop recv sendOk fuel lc (rc + 1) (sc + 1) logged (reqs ++ [(m, sendOk sc)])
        else
          lgLoop recv sendOk fuel (lc + 1) (rc + 1) sc (logged ++ [m]) reqs
    else some ⟨0, logged, reqs⟩

/-- runLoggerProcess (lines 100-120) under a transport oracle, with fuel. -/
def runLoggerProcess (recv : Nat → Option Msg) (sendOk : Nat → Bool)
    (fuel : Nat) : Option LgRun :=
  lgLoop recv sendOk fuel 0 0 0 [] []

/-! ## Coordinator model -/

/-- Lifecycle actions main performs, in program order: the initial unchecked
mq_unlink (line 137), mq_open (line 139), the three forks, the three
wait(NULL) calls recording the collected child status (which main ignores),
the mq_close attempt (line 176) and the final mq_unlink attempt (line 181). -/
inductive MainEvent
  | staleUnlink
  | openQueue
  | forkWorker (i : Nat)
  | waitChild (status : Nat)
  | closeAttempt
  | unlinkAttempt
deriving DecidableEq

/-- main (lines 122-187) as a function of the outcomes of its calls:
staleOk is the result of the initial mq_unlink (ignored), openOk of mq_open,
f1 f2 f3 of the three forks, w1 w2 w3 the exit statuses of the three
children as collected by wait (ignored by main), closeOk of mq_close and
unlinkOk of the final mq_unlink.  Returns the process exit code and the
ordered trace of lifecycle actions. -/
def mainModel (_staleOk openOk f1 f2 f3 : Bool) (w1 w2 w3 : Nat)
    (closeOk unlinkOk : Bool) : Nat × List MainEvent :=
  let t0 := [MainEvent.staleUnlink, MainEvent.openQueue]
  if !openOk then (1, t0) else
  let t1 := t0 ++ [MainEvent.forkWorker 1]
  if !f1 then (1, t1) else
  let t2 := t1 ++ [MainEvent.forkWorker 2]
  if !f2 then (1, t2) else
  let t3 := t2 ++ [MainEvent.forkWorker 3]
  if !f3 then (1, t3) else
  let t4 := t3 ++ [MainEvent.waitChild w1, MainEvent.waitChild w2, MainEvent.waitChild w3]
  let t5 := t4 ++ [MainEvent.closeAttempt]
  if !closeOk then (1, t5) else
  let t6 := t5 ++ [MainEvent.unlinkAttempt]
  if !unlinkOk then (1, t6) else (0, t6)

/-! ## Invariants of the transition system -/

theorem confM_append (l1 l2 : List Msg) : confM (l1 ++ l2) = confM l1 + confM l2 := by
  simp [confM, confList, List.filter_append, Multiset.coe_add]

theorem confM_cons (m : Msg) (l : List Msg) :
    confM (m :: l) = (if m.msg_type = 2 then {m} else 0) + confM l := by
  by_cases h : m.msg_type = 2 <;>
    simp [confM, confList, List.filter_cons, h, Multiset.singleton_add, Multiset.cons_coe]

theorem confM_single (m : Msg) :
    confM [m] = (if m.msg_type = 2 then {m} else 0) := by
  rw [show [m] = m :: ([] : List Msg) from rfl, confM_cons]
  simp [confM, confList]

/-- The inductive invariant of the pipeline, closed under Step:
the Frontend has sent exactly the first fi submissions in order; the
confirmations sent so far carry identifiers 1001, 1002, ... in order and the
names of the accepted submissions in order; the Database has accepted
exactly processedCount messages, all tagged 1; every confirmation is tagged
2 with a non-zero identifier; the Logger has logged exactly loggedCount
messages, all tagged 2; every message in the queue or held by a worker obeys
the tag/identifier discipline; and the confirmations in the queue, held by a
worker, or already logged are together exactly the multiset of
confirmations the Database ever sent. -/
structure Inv (c : Config) : Prop where
  fiLe : c.fi ≤ studentCount
  subsEq : c.sentSubs = (List.range c.fi).map subMsg
  confIds : c.sentConfs.map Msg.rollNo =
    (List.range c.dbAccepted.length).map (fun k : Nat => (1001 : Int) + k)
  confNames : c.sentConfs.map Msg.studentName = c.dbAccepted.map Msg.studentName
  accLen : c.dbAccepted.length = c.db.count
  accTag : ∀ m ∈ c.dbAccepted, m.msg_type = 1
  confsOk : ∀ m ∈ c.sentConfs, m.msg_type = 2 ∧ m.rollNo ≠ 0
  logLen : c.logged.length = c.lg.count
  logTag : ∀ m ∈ c.logged, m.msg_type = 2
  qOk : ∀ m ∈ c.q, tagOk m
  dbHeld : ∀ pc m, c.db = .holding pc m → tagOk m
  lgHeld : ∀ lc m, c.lg = .holding lc m → tagOk m
  conserv : confM c.q + dbHeldM c.db + lgHeldM c.lg + (c.logged : Multiset Msg) =
    (c.sentConfs : Multiset Msg)

theorem inv_init : Inv init := by
  constructor <;>
    simp [init, confM, confList, Multiset.coe_card, dbHeldM, lgHeldM,
      DbState.count, LgState.count]

theorem tagOk_subMsg (i : Nat) : tagOk (subMsg i) := by
  constructor <;> intro h <;> simp [subMsg] at h ⊢

theorem tagOk_confMsg (pc : Nat) (m : Msg) : tagOk (confMsg pc m) := by
  constructor <;> intro h <;> simp [confMsg] at h ⊢
  omega

theorem inv_step {c c2 : Config} (h : Step c c2) (hc : Inv c) : Inv c2 := by
  obtain ⟨fiLe, subsEq, confIds, confNames, accLen, accTag, confsOk, logLen,
    logTag, qOk, dbHeld, lgHeld, conserv⟩ := hc
  cases h with
  | fsend h1 h2 =>
    refine ⟨?_, ?_, confIds, confNames, accLen, accTag, confsOk, logLen, logTag,
      ?_, dbHeld, lgHeld, ?_⟩
    · show c.fi + 1 ≤ studentCount
      omega
    · show c.sentSubs ++ [subMsg c.fi] = (List.range (c.fi + 1)).map subMsg
      simp [subsEq, List.range_succ]
    · show ∀ m ∈ c.q ++ [subMsg c.fi], tagOk m
      intro m hm
      rcases List.mem_append.1 hm with hm | hm
      · exact qOk m hm
      · simp at hm
        subst hm
        exact tagOk_subMsg _
    · show confM (c.q ++ [subMsg c.fi]) + dbHeldM c.db + lgHeldM c.lg +
        (c.logged : Multiset Msg) = (c.sentSubs ++ [subMsg c.fi], c.sentConfs).2
      show confM (c.q ++ [subMsg c.fi]) + dbHeldM c.db + lgHeldM c.lg +
        (c.logged : Multiset Msg) = (c.sentConfs : Multiset Msg)
      rw [← conserv, confM_append, confM_single]
      simp [subMsg]
  | drecv pc m q2 hdb hpc hq =>
    have hmq : m ∈ c.q := by
      rw [hq]
      exact List.mem_cons_self m q2
    refine ⟨fiLe, subsEq, confIds, confNames, ?_, accTag, confsOk, logLen, logTag,
      ?_, ?_, lgHeld, ?_⟩
    · show c.dbAccepted.length = (DbState.holding pc m).count
      rw [accLen, hdb]
      rfl
    · show ∀ x ∈ q2, tagOk x
      intro x hx
      exact qOk x (by rw [hq]; exact List.mem_cons_of_mem m hx)
    · intro pc0 m0 h0
      have h0 : DbState.holding pc m = DbState.holding pc0 m0 := h0
      simp only [DbState.holding.injEq] at h0
      rw [← h0.2]
      exact qOk m hmq
    · show confM q2 + dbHeldM (DbState.holding pc m) + lgHeldM c.lg +
        (c.logged : Multiset Msg) = (c.sentConfs : Multiset Msg)
      rw [hq, confM_cons, hdb] at conserv
      rw [← conserv]
      simp only [dbHeldM]
      abel
  | dproc pc m hdb ht h2 =>
    have hlen : c.dbAccepted.length = pc := by
      rw [accLen, hdb]
      rfl
    refine ⟨fiLe, subsEq, ?_, ?_, ?_, ?_, ?_, logLen, logTag, ?_, ?_, lgHeld, ?_⟩
    · show (c.sentConfs ++ [confMsg pc m]).map Msg.rollNo =
        (List.range (c.dbAccepted ++ [m]).length).map (fun k : Nat => (1001 : Int) + k)
      simp [List.range_succ, confIds, hlen, confMsg]
    · show (c.sentConfs ++ [confMsg pc m]).map Msg.studentName =
        (c.dbAccepted ++ [m]).map Msg.studentName
      simp [confNames, confMsg]
    · show (c.dbAccepted ++ [m]).length = (DbState.waiting (pc + 1)).count
      simp [hlen, DbState.count]
    · show ∀ x ∈ c.dbAccepted ++ [m], x.msg_type = 1
      intro x hx
      rcases List.mem_append.1 hx with hx | hx
      · exact accTag x hx
      · simp at hx
        subst hx
        exact ht
    · show ∀ x ∈ c.sentConfs ++ [confMsg pc m], x.msg_type = 2 ∧ x.rollNo ≠ 0
      intro x hx
      rcases List.mem_append.1 hx with hx | hx
      · exact confsOk x hx
      · simp at hx
        subst hx
        refine ⟨rfl, ?_⟩
        show (1001 : Int) + (pc : Int) ≠ 0
        omega
    · show ∀ x ∈ c.q ++ [confMsg pc m], tagOk x
      intro x hx
      rcases List.mem_append.1 hx with hx | hx
      · exact qOk x hx
      · simp at hx
        subst hx
        exact tagOk_confMsg _ _
    · intro pc0 m0 h0
      have h0 : DbState.waiting (pc + 1) = DbState.holding pc0 m0 := h0
      simp at h0
    · show confM (c.q ++ [confMsg pc m]) + dbHeldM (DbState.waiting (pc + 1)) +
        lgHeldM c.lg + (c.logged : Multiset Msg) =
        ((c.sentConfs ++ [confMsg pc m] : List Msg) : Multiset Msg)
      rw [hdb] at conserv
      rw [← Multiset.coe_add, ← conserv, confM_append, confM_single,
        if_pos (show (confMsg pc m).msg_type = 2 from rfl)]
      simp only [dbHeldM, ht, Multiset.coe_singleton]
      simp
      abel
  | dreq pc m hdb ht h2 =>
    have hm : tagOk m := dbHeld pc m hdb
    refine ⟨fiLe, subsEq, confIds, confNames, ?_, accTag, confsOk, logLen, logTag,
      ?_, ?_, lgHeld, ?_⟩
    · show c.dbAccepted.length = (DbState.waiting pc).count
      rw [accLen, hdb]
      rfl
    · show ∀ x ∈ c.q ++ [m], tagOk x
      intro x hx
      rcases List.mem_append.1 hx with hx | hx
      · exact qOk x hx
      · simp at hx
        subst hx
        exact hm
    · intro pc0 m0 h0
      have h0 : DbState.waiting pc = DbState.holding pc0 m0 := h0
      simp at h0
    · show confM (c.q ++ [m]) + dbHeldM (DbState.waiting pc) + lgHeldM c.lg +
        (c.logged : Multiset Msg) = (c.sentConfs : Multiset Msg)
      rw [hdb] at conserv
      rw [← conserv, confM_append, confM_single]
      simp only [dbHeldM]
      abel
  | lrecv lc m q2 hlg hlc hq =>
    have hmq : m ∈ c.q := by
      rw [hq]
      exact List.mem_cons_self m q2
    refine ⟨fiLe, subsEq, confIds, confNames, accLen, accTag, confsOk, ?_, logTag,
      ?_, dbHeld, ?_, ?_⟩
    · show c.logged.length = (LgState.holding lc m).count
      rw [logLen, hlg]
      rfl
    · show ∀ x ∈ q2, tagOk x
      intro x hx
      exact qOk x (by rw [hq]; exact List.mem_cons_of_mem m hx)
    · intro lc0 m0 h0
      have h0 : LgState.holding lc m = LgState.holding lc0 m0 := h0
      simp only [LgState.holding.injEq] at h0
      rw [← h0.2]
      exact qOk m hmq
    · show confM q2 + dbHeldM c.db + lgHeldM (LgState.holding lc m) +
        (c.logged : Multiset Msg) = (c.sentConfs : Multiset Msg)
      rw [hq, confM_cons, hlg] at conserv
      rw [← conserv]
      simp only [lgHeldM]
      abel
  | llog lc m hlg ht =>
    refine ⟨fiLe, subsEq, confIds, confNames, accLen, accTag, confsOk, ?_, ?_,
      qOk, dbHeld, ?_, ?_⟩
    · show (c.logged ++ [m]).length = (LgState.waiting (lc + 1)).count
      have : c.logged.length = lc := by
        rw [logLen, hlg]
        rfl
      simp [this, LgState.count]
    · show ∀ x ∈ c.logged ++ [m], x.msg_type = 2
      intro x hx
      rcases List.mem_append.1 hx with hx | hx
      · exact logTag x hx
      · simp at hx
        subst hx
        exact ht
    · intro lc0 m0 h0
      have h0 : LgState.waiting (lc + 1) = LgState.holding lc0 m0 := h0
      simp at h0
    · show confM c.q + dbHeldM c.db + lgHeldM (LgState.waiting (lc + 1)) +
        ((c.logged ++ [m] : List Msg) : Multiset Msg) = (c.sentConfs : Multiset Msg)
      rw [hlg] at conserv
      rw [← Multiset.coe_add, ← conserv]
      simp only [lgHeldM, ht, if_pos, Multiset.coe_singleton]
      simp
      abel
  | lreq lc m hlg ht h2 =>
    have hm : tagOk m := lgHeld lc m hlg
    refine ⟨fiLe, subsEq, confIds, confNames, accLen, accTag, confsOk, ?_, logTag,
      ?_, dbHeld, ?_, ?_⟩
    · show c.logged.length = (LgState.waiting lc).count
      rw [logLen, hlg]
      rfl
    · show ∀ x ∈ c.q ++ [m], tagOk x
      intro x hx
      rcases List.mem_append.1 hx with hx | hx
      · exact qOk x hx
      · simp at hx
        subst hx
        exact hm
    · intro lc0 m0 h0
      have h0 : LgState.waiting lc = LgState.holding lc0 m0 := h0
      simp at h0
    · show confM (c.q ++ [m]) + dbHeldM c.db + lgHeldM (LgState.waiting lc) +
        (c.logged : Multiset Msg) = (c.sentConfs : Multiset Msg)
      rw [hlg] at conserv
      rw [← conserv, confM_append, confM_single]
      simp only [lgHeldM]
      abel

/-- Every reachable configuration satisfies the invariant. -/
theorem reach_inv {c : Config} (h : Reach c) : Inv c := by
  unfold Reach at h
  induction h with
  | refl => exact inv_init
  | tail _ hstep ih => exact inv_step hstep ih

/-! ## The concrete nominal run -/

/-- The terminal configuration of the nominal run: every student submitted,
processed and logged, the queue drained, all counters at studentCount. -/
def finalC : Config :=
  { q := [], fi := 3, db := .waiting 3, lg := .waiting 3,
    logged := [confMsg 0 (subMsg 0), confMsg 1 (subMsg 1), confMsg 2 (subMsg 2)],
    sentSubs := [subMsg 0, subMsg 1, subMsg 2],
    sentConfs := [confMsg 0 (subMsg 0), confMsg 1 (subMsg 1), confMsg 2 (subMsg 2)],
    dbAccepted := [subMsg 0, subMsg 1, subMsg 2] }

/-- The nominal interleaving (one record at a time, matching the sleep-paced
schedule of the program) reaches the terminal configuration. -/
theorem reach_final : Reach finalC := by
  unfold Reach
  refine Relation.ReflTransGen.head (Step.fsend init (by decide) (by decide)) ?_
  refine Relation.ReflTransGen.head (Step.drecv _ 0 (subMsg 0) [] rfl (by decide) rfl) ?_
  refine Relation.ReflTransGen.head (Step.dproc _ 0 (subMsg 0) rfl rfl (by decide)) ?_
  refine Relation.ReflTransGen.head
    (Step.lrecv _ 0 (confMsg 0 (subMsg 0)) [] rfl (by decide) rfl) ?_
  refine Relation.ReflTransGen.head (Step.llog _ 0 (confMsg 0 (subMsg 0)) rfl rfl) ?_
  refine Relation.ReflTransGen.head (Step.fsend _ (by decide) (by decide)) ?_
  refine Relation.ReflTransGen.head (Step.drecv _ 1 (subMsg 1) [] rfl (by decide) rfl) ?_
  refine Relation.ReflTransGen.head (Step.dproc _ 1 (subMsg 1) rfl rfl (by decide)) ?_
  refine Relation.ReflTransGen.head
    (Step.lrecv _ 1 (confMsg 1 (subMsg 1)) [] rfl (by decide) rfl) ?_
  refine Relation.ReflTransGen.head (Step.llog _ 1 (confMsg 1 (subMsg 1)) rfl rfl) ?_
  refine Relation.ReflTransGen.head (Step.fsend _ (by decide) (by decide)) ?_
  refine Relation.ReflTransGen.head (Step.drecv _ 2 (subMsg 2) [] rfl (by decide) rfl) ?_
  refine Relation.ReflTransGen.head (Step.dproc _ 2 (subMsg 2) rfl rfl (by decide)) ?_
  refine Relation.ReflTransGen.head
    (Step.lrecv _ 2 (confMsg 2 (subMsg 2)) [] rfl (by decide) rfl) ?_
  refine Relation.ReflTransGen.head (Step.llog _ 2 (confMsg 2 (subMsg 2)) rfl rfl) ?_
  show Relation.ReflTransGen Step finalC finalC
  exact Relation.ReflTransGen.refl

/-! ## Claims -/

/-- C1.  Conservation: in every run in which all three workers have reached
their exit conditions (Frontend sent all studentCount submissions, Database
processedCount = studentCount, Logger loggedCount = studentCount), exactly
studentCount submissions were sent, exactly studentCount confirmations were
sent, and exactly studentCount confirmation records were logged; the
submissions are pairwise distinct, the confirmation identifiers are pairwise
distinct, and the logged records are exactly a permutation of the sent
confirmations — no duplicates, no drops. -/
theorem c1_conservation (c : Config) (hreach : Reach c)
    (hf : c.fi = studentCount) (hdb : c.db = DbState.waiting studentCount)
    (hlg : c.lg = LgState.waiting studentCount) :
    c.sentSubs.length = studentCount ∧
    c.sentConfs.length = studentCount ∧
    c.logged.length = studentCount ∧
    c.sentSubs.Nodup ∧
    (c.sentConfs.map Msg.rollNo).Nodup ∧
    c.logged.Perm c.sentConfs := by
  have inv := reach_inv hreach
  have hsubs : c.sentSubs = [subMsg 0, subMsg 1, subMsg 2] := by
    rw [inv.subsEq, hf]
    rfl
  have hacc : c.dbAccepted.length = studentCount := by
    rw [inv.accLen, hdb]
    rfl
  have hconfLen : c.sentConfs.length = studentCount := by
    have := congrArg List.length inv.confIds
    simpa [hacc] using this
  have hlogLen : c.logged.length = studentCount := by
    rw [inv.logLen, hlg]
    rfl
  have hperm : c.logged.Perm c.sentConfs := by
    have hcons := inv.conserv
    rw [hdb, hlg] at hcons
    simp only [dbHeldM, lgHeldM] at hcons
    rw [add_zero, add_zero] at hcons
    have hcard := congrArg Multiset.card hcons
    simp only [Multiset.card_add, Multiset.coe_card] at hcard
    rw [hconfLen, hlogLen] at hcard
    have hq0 : confM c.q = 0 := by
      rw [← Multiset.card_eq_zero]
      omega
    rw [hq0, zero_add] at hcons
    exact Multiset.coe_eq_coe.1 hcons
  refine ⟨by rw [hsubs]; rfl, hconfLen, hlogLen, by rw [hsubs]; decide, ?_, hperm⟩
  rw [inv.confIds, hacc]
  decide

/-- C1 witness: the conclusion at the terminal configuration of the nominal
run. -/
theorem c1_witness :
    finalC.sentSubs.length = studentCount ∧
    finalC.sentConfs.length = studentCount ∧
    finalC.logged.length = studentCount ∧
    finalC.sentSubs.Nodup ∧
    (finalC.sentConfs.map Msg.rollNo).Nodup ∧
    finalC.logged.Perm finalC.sentConfs :=
  c1_conservation finalC reach_final rfl rfl rfl

/-- C2.  Identifier assignment: in every reachable configuration, the k-th
confirmation the Database has sent (counting from 0) carries identifier
1001 + k, so identifiers are unique and strictly increasing in assignment
order starting at the base offset 1001; moreover the confirmations carry,
in order, exactly the names of the submissions the Database accepted, so the
k-th accepted submission is the one that received identifier 1001 + k. -/
theorem c2_identifiers (c : Config) (hreach : Reach c) :
    c.sentConfs.map Msg.rollNo =
      (List.range c.sentConfs.length).map (fun k : Nat => (1001 : Int) + k) ∧
    (c.sentConfs.map Msg.rollNo).Pairwise (· < ·) ∧
    (c.sentConfs.map Msg.rollNo).Nodup ∧
    c.sentConfs.length = c.dbAccepted.length ∧
    c.sentConfs.map Msg.studentName = c.dbAccepted.map Msg.studentName := by
  have inv := reach_inv hreach
  have hlen : c.sentConfs.length = c.dbAccepted.length := by
    have := congrArg List.length inv.confIds
    simpa using this
  have hpair : (c.sentConfs.map Msg.rollNo).Pairwise (· < ·) := by
    rw [inv.confIds]
    refine List.Pairwise.map _ ?_ (List.pairwise_lt_range _)
    intro a b hab
    omega
  exact ⟨by rw [hlen]; exact inv.confIds, hpair, hpair.imp ne_of_lt, hlen, inv.confNames⟩

/-- C2 witness: the identifier formula at the terminal configuration of the
nominal run: the three confirmations carry identifiers 1001, 1002, 1003. -/
theorem c2_witness :
    finalC.sentConfs.map Msg.rollNo =
      (List.range finalC.sentConfs.length).map (fun k : Nat => (1001 : Int) + k) :=
  (c2_identifiers finalC reach_final).1

/-- C7.  Tag/identifier discipline: in every reachable configuration, every
message in the queue, every submission the Frontend ever sent and every
confirmation the Database ever sent satisfies: tag 1 implies rollNo = 0 and
tag 2 implies rollNo is non-zero.  Requeues preserve this because a requeue
re-sends a message that was already in the queue. -/
theorem c7_tag_id_invariant (c : Config) (hreach : Reach c) :
    (∀ m ∈ c.q, (m.msg_type = 1 → m.rollNo = 0) ∧ (m.msg_type = 2 → m.rollNo ≠ 0)) ∧
    (∀ m ∈ c.sentSubs, m.msg_type = 1 ∧ m.rollNo = 0) ∧
    (∀ m ∈ c.sentConfs, m.msg_type = 2 ∧ m.rollNo ≠ 0) := by
  have inv := reach_inv hreach
  refine ⟨fun m hm => inv.qOk m hm, ?_, inv.confsOk⟩
  intro m hm
  rw [inv.subsEq] at hm
  obtain ⟨k, hk, rfl⟩ := List.mem_map.1 hm
  exact ⟨rfl, rfl⟩

/-- C7 witness: the discipline holds for the first confirmation sent in the
nominal run. -/
theorem c7_witness :
    (confMsg 0 (subMsg 0)).msg_type = 2 ∧ (confMsg 0 (subMsg 0)).rollNo ≠ 0 :=
  (c7_tag_id_invariant finalC reach_final).2.2 (confMsg 0 (subMsg 0)) (by decide)

/-- C3.  Tag integrity: in every reachable configuration every message the
Database has accepted has tag 1 and every message the Logger has accepted
(logged) has tag 2; moreover, in any single step, a message held by the
Database whose tag is not 1 is never accepted — the only thing the Database
can do with it is re-send it onto the queue — and symmetrically for the
Logger with tags other than 2. -/
theorem c3_tag_integrity :
    (∀ c : Config, Reach c →
      (∀ m ∈ c.dbAccepted, m.msg_type = 1) ∧ (∀ m ∈ c.logged, m.msg_type = 2)) ∧
    (∀ c c2 : Config, Step c c2 →
      (∀ pc m, c.db = DbState.holding pc m → m.msg_type ≠ 1 →
        c2.dbAccepted = c.dbAccepted ∧
        (c2.db = c.db ∨ (c2.db = DbState.waiting pc ∧ c2.q = c.q ++ [m]))) ∧
      (∀ lc m, c.lg = LgState.holding lc m → m.msg_type ≠ 2 →
        c2.logged = c.logged ∧
        (c2.lg = c.lg ∨ (c2.lg = LgState.waiting lc ∧ c2.q = c.q ++ [m])))) := by
  constructor
  · intro c hreach
    have inv := reach_inv hreach
    exact ⟨inv.accTag, inv.logTag⟩
  · intro c c2 h
    cases h with
    | fsend h1 h2 =>
      refine ⟨fun pc m hdb ht => ⟨rfl, Or.inl rfl⟩, fun lc m hlg ht => ⟨rfl, Or.inl rfl⟩⟩
    | drecv pc m q2 hdb hpc hq =>
      constructor
      · intro pc0 m0 hdb0 ht0
        rw [hdb] at hdb0
        exact absurd hdb0 (by simp)
      · exact fun lc0 m0 hlg0 ht0 => ⟨rfl, Or.inl rfl⟩
    | dproc pc m hdb ht h2 =>
      constructor
      · intro pc0 m0 hdb0 ht0
        rw [hdb] at hdb0
        simp only [DbState.holding.injEq] at hdb0
        rw [← hdb0.2] at ht0
        exact absurd ht ht0
      · exact fun lc0 m0 hlg0 ht0 => ⟨rfl, Or.inl rfl⟩
    | dreq pc m hdb ht h2 =>
      constructor
      · intro pc0 m0 hdb0 ht0
        rw [hdb] at hdb0
        simp only [DbState.holding.injEq] at hdb0
        refine ⟨rfl, Or.inr ⟨?_, ?_⟩⟩
        · show DbState.waiting pc = DbState.waiting pc0
          rw [hdb0.1]
        · show c.q ++ [m] = c.q ++ [m0]
          rw [hdb0.2]
      · exact fun lc0 m0 hlg0 ht0 => ⟨rfl, Or.inl rfl⟩
    | lrecv lc m q2 hlg hlc hq =>
      constructor
      · exact fun pc0 m0 hdb0 ht0 => ⟨rfl, Or.inl rfl⟩
      · intro lc0 m0 hlg0 ht0
        rw [hlg] at hlg0
        exact absurd hlg0 (by simp)
    | llog lc m hlg ht =>
      constructor
      · exact fun pc0 m0 hdb0 ht0 => ⟨rfl, Or.inl rfl⟩
      · intro lc0 m0 hlg0 ht0
        rw [hlg] at hlg0
        simp only [LgState.holding.injEq] at hlg0
        rw [← hlg0.2] at ht0
        exact absurd ht ht0
    | lreq lc m hlg ht h2 =>
      constructor
      · exact fun pc0 m0 hdb0 ht0 => ⟨rfl, Or.inl rfl⟩
      · intro lc0 m0 hlg0 ht0
        rw [hlg] at hlg0
        simp only [LgState.holding.injEq] at hlg0
        refine ⟨rfl, Or.inr ⟨?_, ?_⟩⟩
        · show LgState.waiting lc = LgState.waiting lc0
          rw [hlg0.1]
        · show c.q ++ [m] = c.q ++ [m0]
          rw [hlg0.2]

/-- C3 witness: at the terminal configuration of the nominal run, the first
accepted submission has tag 1 and the first logged record has tag 2. -/
theorem c3_witness : (subMsg 0).msg_type = 1 ∧ (confMsg 0 (subMsg 0)).msg_type = 2 :=
  ⟨(c3_tag_integrity.1 finalC reach_final).1 (subMsg 0) (by decide),
   (c3_tag_integrity.1 finalC reach_final).2 (confMsg 0 (subMsg 0)) (by decide)⟩

/-- C6.  Requeue frame property: in any step in which a stage that was
holding a wrongly-tagged message moves back to the top of its receive loop,
the queue is extended with exactly that message, unmodified, and nothing
else changes: the Frontend index, the other stage, the log, and all three
send/accept histories are untouched, and the stage's own counter
(processedCount or loggedCount) is unchanged. -/
theorem c6_requeue_frame (c c2 : Config) (h : Step c c2) :
    (∀ pc m, c.db = DbState.holding pc m → m.msg_type ≠ 1 →
      c2.db = DbState.waiting pc →
      c2.q = c.q ++ [m] ∧ c2.fi = c.fi ∧ c2.lg = c.lg ∧ c2.logged = c.logged ∧
      c2.sentSubs = c.sentSubs ∧ c2.sentConfs = c.sentConfs ∧
      c2.dbAccepted = c.dbAccepted ∧ c2.db.count = c.db.count) ∧
    (∀ lc m, c.lg = LgState.holding lc m → m.msg_type ≠ 2 →
      c2.lg = LgState.waiting lc →
      c2.q = c.q ++ [m] ∧ c2.fi = c.fi ∧ c2.db = c.db ∧ c2.logged = c.logged ∧
      c2.sentSubs = c.sentSubs ∧ c2.sentConfs = c.sentConfs ∧
      c2.dbAccepted = c.dbAccepted ∧ c2.lg.count = c.lg.count) := by
  cases h with
  | fsend h1 h2 =>
    constructor
    · intro pc m hdb ht hw
      rw [show ({ c with
          q := c.q ++ [subMsg c.fi],
          fi := c.fi + 1,
          sentSubs := c.sentSubs ++ [subMsg c.fi] } : Config).db = c.db from rfl, hdb] at hw
      exact absurd hw (by simp)
    · intro lc m hlg ht hw
      rw [show ({ c with
          q := c.q ++ [subMsg c.fi],
          fi := c.fi + 1,
          sentSubs := c.sentSubs ++ [subMsg c.fi] } : Config).lg = c.lg from rfl, hlg] at hw
      exact absurd hw (by simp)
  | drecv pc m q2 hdb hpc hq =>
    constructor
    · intro pc0 m0 hdb0 ht0 hw
      rw [hdb] at hdb0
      exact absurd hdb0 (by simp)
    · intro lc0 m0 hlg0 ht0 hw
      rw [show ({ c with q := q2, db := DbState.holding pc m } : Config).lg = c.lg
        from rfl, hlg0] at hw
      exact absurd hw (by simp)
  | dproc pc m hdb ht h2 =>
    constructor
    · intro pc0 m0 hdb0 ht0 hw
      rw [hdb] at hdb0
      simp only [DbState.holding.injEq] at hdb0
      rw [← hdb0.2] at ht0
      exact absurd ht ht0
    · intro lc0 m0 hlg0 ht0 hw
      rw [show ({ c with
          q := c.q ++ [confMsg pc m],
          db := DbState.waiting (pc + 1),
          sentConfs := c.sentConfs ++ [confMsg pc m],
          dbAccepted := c.dbAccepted ++ [m] } : Config).lg = c.lg from rfl, hlg0] at hw
      exact absurd hw (by simp)
  | dreq pc m hdb ht h2 =>
    constructor
    · intro pc0 m0 hdb0 ht0 hw
      rw [hdb] at hdb0
      simp only [DbState.holding.injEq] at hdb0
      obtain ⟨rfl, rfl⟩ := hdb0
      exact ⟨rfl, rfl, rfl, rfl, rfl, rfl, rfl, by rw [hdb]; rfl⟩
    · intro lc0 m0 hlg0 ht0 hw
      rw [show ({ c with q := c.q ++ [m], db := DbState.waiting pc } : Config).lg = c.lg
        from rfl, hlg0] at hw
      exact absurd hw (by simp)
  | lrecv lc m q2 hlg hlc hq =>
    constructor
    · intro pc0 m0 hdb0 ht0 hw
      rw [show ({ c with q := q2, lg := LgState.holding lc m } : Config).db = c.db
        from rfl, hdb0] at hw
      exact absurd hw (by simp)
    · intro lc0 m0 hlg0 ht0 hw
      rw [hlg] at hlg0
      exact absurd hlg0 (by simp)
  | llog lc m hlg ht =>
    constructor
    · intro pc0 m0 hdb0 ht0 hw
      rw [show ({ c with
          lg := LgState.waiting (lc + 1),
          logged := c.logged ++ [m] } : Config).db = c.db from rfl, hdb0] at hw
      exact absurd hw (by simp)
    · intro lc0 m0 hlg0 ht0 hw
      rw [hlg] at hlg0
      simp only [LgState.holding.injEq] at hlg0
      rw [← hlg0.2] at ht0
      exact absurd ht ht0
  | lreq lc m hlg ht h2 =>
    constructor
    · intro pc0 m0 hdb0 ht0 hw
      rw [show ({ c with q := c.q ++ [m], lg := LgState.waiting lc } : Config).db = c.db
        from rfl, hdb0] at hw
      exact absurd hw (by simp)
    · intro lc0 m0 hlg0 ht0 hw
      rw [hlg] at hlg0
      simp only [LgState.holding.injEq] at hlg0
      obtain ⟨rfl, rfl⟩ := hlg0
      exact ⟨rfl, rfl, rfl, rfl, rfl, rfl, rfl, by rw [hlg]; rfl⟩

/-- A configuration in which the Database holds a wrongly-tagged message,
used to exercise the requeue step. -/
def cfgHoldDb : Config :=
  { q := [], fi := 3, db := .holding 1 { msg_type := 2, studentName := "X", rollNo := 77 },
    lg := .waiting 3, logged := [], sentSubs := [], sentConfs := [], dbAccepted := [] }

/-- The configuration after the Database requeues that message. -/
def cfgHoldDb2 : Config :=
  { cfgHoldDb with
    q := cfgHoldDb.q ++ [{ msg_type := 2, studentName := "X", rollNo := 77 }],
    db := DbState.waiting 1 }

/-- C6 witness: exercising the frame property on a concrete requeue step. -/
theorem c6_witness :
    cfgHoldDb2.q = cfgHoldDb.q ++ [{ msg_type := 2, studentName := "X", rollNo := 77 }] ∧
    cfgHoldDb2.fi = cfgHoldDb.fi ∧ cfgHoldDb2.lg = cfgHoldDb.lg ∧
    cfgHoldDb2.logged = cfgHoldDb.logged ∧
    cfgHoldDb2.sentSubs = cfgHoldDb.sentSubs ∧
    cfgHoldDb2.sentConfs = cfgHoldDb.sentConfs ∧
    cfgHoldDb2.dbAccepted = cfgHoldDb.dbAccepted ∧
    cfgHoldDb2.db.count = cfgHoldDb.db.count :=
  (c6_requeue_frame cfgHoldDb cfgHoldDb2
      (Step.dreq cfgHoldDb 1 { msg_type := 2, studentName := "X", rollNo := 77 }
        rfl (by decide) (by decide))).1
    1 { msg_type := 2, studentName := "X", rollNo := 77 } rfl (by decide) rfl

/-! ## Transport failures and the coordinator -/

/-- A confirmation-tagged message that reaches the Database out of order. -/
def wrongMsg : Msg := { msg_type := 2, studentName := "X", rollNo := 77 }

/-- Receive oracle: the first mq_receive returns a confirmation (wrong tag
for the Database), the following ones return the three submissions. -/
def cexRecv : Nat → Option Msg := fun n =>
  if n = 0 then some wrongMsg else some (subMsg (n - 1))

/-- Send oracle: the very first mq_send — the requeue of the wrong-tag
message — fails; every later send succeeds. -/
def cexSend : Nat → Bool := fun n => n ≠ 0

/-- An oracle on which every mq_receive fails. -/
def noRecv : Nat → Option Msg := fun _ => none

/-- An oracle on which every mq_send succeeds. -/
def okSend : Nat → Bool := fun _ => true

/-- C4 counterexample: the requeue re-send is NOT covered by the fatality
rule.  Under cexRecv/cexSend the Database requeue mq_send fails (the
requeues record carries result false), yet the worker does not terminate:
it keeps running, processes all three submissions and exits 0.  This is
because runDatabaseProcess (line 78) and runLoggerProcess (line 112) ignore
the return value of the requeue mq_send. -/
theorem c4_counterexample :
    runDatabaseProcess cexRecv cexSend 5 =
      some { exitCode := 0,
             accepted := [subMsg 0, subMsg 1, subMsg 2],
             confs := [confMsg 0 (subMsg 0), confMsg 1 (subMsg 1), confMsg 2 (subMsg 2)],
             requeues := [(wrongMsg, false)] } := by
  decide

/-- C4 (amended).  A failed mq_receive is fatal to the Database and to the
Logger, and a failed mq_send is fatal to the Frontend (submission send) and
to the Database (confirmation send): the worker exits 1 at once, with no
retry and no further channel operations.  The requeue re-sends are the
exception: their result is ignored, and the Database and Logger loops
continue identically whatever that send returned. -/
theorem c4_transport_fatal :
    (∀ (sendOk : Nat → Bool) (r i : Nat) (sent : List Msg), sendOk i = false →
      feLoop sendOk (r + 1) i sent = (1, sent)) ∧
    (∀ (recv : Nat → Option Msg) (sendOk : Nat → Bool) (fuel pc rc sc : Nat)
      (acc confs : List Msg) (reqs : List (Msg × Bool)),
      pc < studentCount → recv rc = none →
      dbLoop recv sendOk (fuel + 1) pc rc sc acc confs reqs =
        some { exitCode := 1, accepted := acc, confs := confs, requeues := reqs }) ∧
    (∀ (recv : Nat → Option Msg) (sendOk : Nat → Bool) (fuel pc rc sc : Nat)
      (acc confs : List Msg) (reqs : List (Msg × Bool)) (m : Msg),
      pc < studentCount → recv rc = some m → m.msg_type = 1 → sendOk sc = false →
      dbLoop recv sendOk (fuel + 1) pc rc sc acc confs reqs =
        some { exitCode := 1, accepted := acc ++ [m], confs := confs, requeues := reqs }) ∧
    (∀ (recv : Nat → Option Msg) (sendOk : Nat → Bool) (fuel lc rc sc : Nat)
      (logged : List Msg) (reqs : List (Msg × Bool)),
      lc < studentCount → recv rc = none →
      lgLoop recv sendOk (fuel + 1) lc rc sc logged reqs =
        some { exitCode := 1, logged := logged, requeues := reqs }) ∧
    (∀ (recv : Nat → Option Msg) (sendOk : Nat → Bool) (fuel pc rc sc : Nat)
      (acc confs : List Msg) (reqs : List (Msg × Bool)) (m : Msg),
      pc < studentCount → recv rc = some m → m.msg_type ≠ 1 →
      dbLoop recv sendOk (fuel + 1) pc rc sc acc confs reqs =
        dbLoop recv sendOk fuel pc (rc + 1) (sc + 1) acc confs (reqs ++ [(m, sendOk sc)])) ∧
    (∀ (recv : Nat → Option Msg) (sendOk : Nat → Bool) (fuel lc rc sc : Nat)
      (logged : List Msg) (reqs : List (Msg × Bool)) (m : Msg),
      lc < studentCount → recv rc = some m → m.msg_type ≠ 2 →
      lgLoop recv sendOk (fuel + 1) lc rc sc logged reqs =
        lgLoop recv sendOk fuel lc (rc + 1) (sc + 1) logged (reqs ++ [(m, sendOk sc)])) := by
  refine ⟨?_, ?_, ?_, ?_, ?_, ?_⟩
  · intro sendOk r i sent h
    simp [feLoop, h]
  · intro recv sendOk fuel pc rc sc acc confs reqs hpc hr
    simp [dbLoop, hpc, hr]
  · intro recv sendOk fuel pc rc sc acc confs reqs m hpc hr ht hs
    simp [dbLoop, hpc, hr, ht, hs]
  · intro recv sendOk fuel lc rc sc logged reqs hlc hr
    simp [lgLoop, hlc, hr]
  · intro recv sendOk fuel pc rc sc acc confs reqs m hpc hr ht
    simp [dbLoop, hpc, hr, ht]
  · intro recv sendOk fuel lc rc sc logged reqs m hlc hr ht
    simp [lgLoop, hlc, hr, ht]

/-- C4 witness: a failed first receive makes the Database exit 1 at once. -/
theorem c4_witness :
    dbLoop noRecv okSend 1 0 0 0 [] [] [] =
      some { exitCode := 1, accepted := [], confs := [], requeues := [] } :=
  c4_transport_fatal.2.1 noRecv okSend 0 0 0 0 [] [] [] (by decide) rfl

/-- C5 counterexample: all three workers terminate abnormally (collected
statuses 1, 1, 1), every lifecycle call succeeds, and main still exits 0:
wait(NULL) discards the statuses (lines 172-174), so the Coordinator never
reports worker failure upward. -/
theorem c5_counterexample :
    (mainModel true true true true true 1 1 1 true true).1 = 0 := by
  decide

/-- C5 (amended).  The Coordinator blocks on all three workers and then
always proceeds to teardown, but it ignores the collected exit statuses:
the run exits 0 if and only if mq_open, the three forks, mq_close and the
final mq_unlink succeed, independently of the workers' outcomes and of the
initial stale unlink. -/
theorem c5_exit_status (staleOk openOk f1 f2 f3 : Bool) (w1 w2 w3 : Nat)
    (closeOk unlinkOk : Bool) :
    (mainModel staleOk openOk f1 f2 f3 w1 w2 w3 closeOk unlinkOk).1 = 0 ↔
      (openOk = true ∧ f1 = true ∧ f2 = true ∧ f3 = true ∧
       closeOk = true ∧ unlinkOk = true) := by
  cases openOk <;> cases f1 <;> cases f2 <;> cases f3 <;> cases closeOk <;>
    cases unlinkOk <;> simp [mainModel]

/-- C5 witness: with every lifecycle call succeeding, the run exits 0 even
for arbitrary worker statuses 5, 6, 7. -/
theorem c5_witness : (mainModel true true true true true 5 6 7 true true).1 = 0 :=
  (c5_exit_status true true true true true 5 6 7 true true).2
    ⟨rfl, rfl, rfl, rfl, rfl, rfl⟩

/-- C8.  The configured concrete run (three students Alice, Bob, Charlie,
base offset 1001): the nominal schedule reaches the terminal configuration,
in which the Logger logged exactly the three confirmations with identifiers
1001, 1002, 1003 in the order the Database assigned them, each carrying the
name of the submission it was assigned to (the logged records are exactly
the sent confirmations, whose names are those of the accepted submissions),
and the coordinator, with all lifecycle calls succeeding, exits 0. -/
theorem c8_concrete_run :
    Reach finalC ∧
    finalC.logged =
      [{ msg_type := 2, studentName := "Alice", rollNo := 1001 },
       { msg_type := 2, studentName := "Bob", rollNo := 1002 },
       { msg_type := 2, studentName := "Charlie", rollNo := 1003 }] ∧
    finalC.logged = finalC.sentConfs ∧
    finalC.sentConfs.map Msg.studentName = finalC.dbAccepted.map Msg.studentName ∧
    finalC.dbAccepted = [subMsg 0, subMsg 1, subMsg 2] ∧
    (mainModel true true true true true 0 0 0 true true).1 = 0 :=
  ⟨reach_final, by decide, by decide, by decide, by decide, by decide⟩

/-- C9.  Coordinator lifecycle order: when mq_open and the three forks
succeed, main performs, in exactly this order: the idempotent stale
mq_unlink, mq_open, the three forks, the three waits (one per worker,
regardless of the statuses the workers report), then the mq_close attempt,
and the final mq_unlink attempt exactly when mq_close succeeded.  Teardown
is thus attempted for every combination of worker outcomes, and only main
ever opens or unlinks the queue (the worker models contain no lifecycle
action). -/
theorem c9_lifecycle_order (staleOk : Bool) (w1 w2 w3 : Nat) (closeOk unlinkOk : Bool) :
    (mainModel staleOk true true true true w1 w2 w3 closeOk unlinkOk).2 =
      [MainEvent.staleUnlink, MainEvent.openQueue, MainEvent.forkWorker 1,
       MainEvent.forkWorker 2, MainEvent.forkWorker 3, MainEvent.waitChild w1,
       MainEvent.waitChild w2, MainEvent.waitChild w3, MainEvent.closeAttempt] ++
      (if closeOk then [MainEvent.unlinkAttempt] else []) := by
  cases closeOk <;> cases unlinkOk <;> simp [mainModel]

/-- C9 witness: the lifecycle trace of a run whose workers all failed still
contains the full teardown sequence. -/
theorem c9_witness :
    (mainModel true true true true true 1 1 1 true true).2 =
      [MainEvent.staleUnlink, MainEvent.openQueue, MainEvent.forkWorker 1,
       MainEvent.forkWorker 2, MainEvent.forkWorker 3, MainEvent.waitChild 1,
       MainEvent.waitChild 1, MainEvent.waitChild 1, MainEvent.closeAttempt] ++
      (if true then [MainEvent.unlinkAttempt] else []) :=
  c9_lifecycle_order true 1 1 1 true true

/-- C10.  Teardown errors after a fully successful pipeline are overall
failures: with all workers succeeding, a failed mq_close exits 1, a failed
final mq_unlink exits 1, while a failed initial stale-cleanup mq_unlink is
ignored and the run still exits 0. -/
theorem c10_teardown_exit :
    (mainModel true true true true true 0 0 0 false true).1 = 1 ∧
    (mainModel true true true true true 0 0 0 true false).1 = 1 ∧
    (mainModel false true true true true 0 0 0 true true).1 = 0 := by
  decide

end PosixPipeline
